import Mathlib

set_option maxRecDepth 8192

/-!
Verification development for the markdown QA-generation pipeline
(`qa-gen.py`, `simple_qa_gen.py`, `qa-gen_implicit-n-questions.py`, `qa.py`).

Text is modelled as `List Char`.  The heading regexp
`^(#{1,6})\s+(.+)$` with MULTILINE, applied through `re.finditer`, is
modelled faithfully: a match may only begin at a line start, the run of
hash characters must have length 1..6 (a longer run cannot backtrack
because the character after a shorter prefix is again a hash, not
whitespace), the `\s+` part greedily consumes whitespace (possibly
spanning newlines) and backtracks until `(.+)$` can match, i.e. until
the next character exists and is not a newline; `(.+)$` then extends to
the next newline or the end of the text.  Scanning resumes at the end
of the previous match.  Whitespace is modelled as the six ASCII
whitespace characters recognised by both Python `str.strip` and `\s`
on ASCII text; non-ASCII whitespace is outside the model.
-/

def isPySpace (c : Char) : Bool :=
  c == ' ' || c == '\t' || c == '\n' || c == '\r' || c == '\x0b' || c == '\x0c'

/-- Python `str.strip()` on ASCII text: drop whitespace from both ends. -/
def pyStrip (s : List Char) : List Char :=
  ((s.dropWhile isPySpace).reverse.dropWhile isPySpace).reverse

/-- The substring `t[a:b]` of Python slicing (clamped, as in Python). -/
def sliceL (t : List Char) (a b : Nat) : List Char :=
  (t.drop a).take (b - a)

def startsWithL : List Char → List Char → Bool
  | [], _ => true
  | _ :: _, [] => false
  | p :: ps, c :: cs => p == c && startsWithL ps cs

/-- Index of the first occurrence of `pat` as a contiguous sublist, if any. -/
def findSubIdx (pat : List Char) : List Char → Option Nat
  | [] => if pat.isEmpty then some 0 else none
  | c :: rest =>
    if startsWithL pat (c :: rest) then some 0
    else (findSubIdx pat rest).map (· + 1)

/-- Python `"/".join(...)` over a list of path components. -/
def joinSlash (ps : List (List Char)) : List Char :=
  List.intercalate ['/'] ps

/-- One match of the heading regexp: `[mstart, mend)` is the matched span,
`level` the number of hashes, `rawTitle` the text of capture group 2
(before the `.strip()` applied by the caller). -/
structure HMatch where
  mstart : Nat
  mend : Nat
  level : Nat
  rawTitle : List Char
deriving DecidableEq

/-- A MULTILINE `^` anchor: position 0 or just after a newline. -/
def lineStart (t : List Char) (p : Nat) : Bool :=
  p == 0 || t[p - 1]? == some '\n'

/-- Backtracking of the greedy `\s+`: the largest `j` with `1 ≤ j ≤ w` such
that the character at `q + j` exists and is not a newline (so that `(.+)$`
can start there).  All characters at `q ..< q + w` are whitespace. -/
def backtrackJ (t : List Char) (q : Nat) : Nat → Option Nat
  | 0 => none
  | j + 1 =>
    if q + j + 1 < t.length ∧ t.getD (q + j + 1) ' ' ≠ '\n' then some (j + 1)
    else backtrackJ t q j

/-- Attempt to match `(#{1,6})\s+(.+)$` at position `p` (line-start already
checked by the caller). -/
def matchAt (t : List Char) (p : Nat) : Option HMatch :=
  let k := ((t.drop p).takeWhile (fun c => c == '#')).length
  if k = 0 ∨ 7 ≤ k then none
  else
    let q := p + k
    let w := ((t.drop q).takeWhile isPySpace).length
    if w = 0 then none
    else
      match backtrackJ t q w with
      | none => none
      | some j =>
        let r0 := q + j
        let tl := ((t.drop r0).takeWhile (fun c => !(c == '\n'))).length
        some ⟨p, r0 + tl, k, (t.drop r0).take tl⟩

/-- `re.finditer`: scan left to right, emit non-overlapping matches,
resume after the end of each match.  Fuel bounds the scan; `t.length + 1`
is enough because the position strictly increases at every step. -/
def findFrom (t : List Char) : Nat → Nat → List HMatch
  | 0, _ => []
  | fuel + 1, p =>
    if t.length ≤ p then []
    else
      match (if lineStart t p then matchAt t p else none) with
      | some m => m :: findFrom t fuel m.mend
      | none => findFrom t fuel (p + 1)

def findMatches (t : List Char) : List HMatch :=
  findFrom t (t.length + 1) 0

/-- One element of the list returned by
`MarkdownQAGenerator.extract_headings_and_content`, instrumented with the
span offsets the code computes (`hstart`/`hend` delimit the heading match,
`hend`/`cend` delimit the raw content span before `.strip()`). -/
structure MdSection where
  title : List Char
  level : Nat
  pathList : List (List Char)
  content : List Char
  hstart : Nat
  hend : Nat
  cend : Nat
deriving DecidableEq

/-- `while heading_stack and heading_stack[-1][0] >= level: heading_stack.pop()`
with the stack stored top-first. -/
def popGE (level : Nat) (stack : List (Nat × List Char)) : List (Nat × List Char) :=
  stack.dropWhile (fun e => decide (level ≤ e.1))

/-- Start of the next match, or the end of the document: the `end` used for
`content = md_text[start:end].strip()`. -/
def headStart (t : List Char) : List HMatch → Nat
  | [] => t.length
  | m :: _ => m.mstart

/-- The loop body of `extract_headings_and_content`: pop stack entries with
level ≥ the current level, push the current heading, record the section. -/
def sectionsAux (t : List Char) : List HMatch → List (Nat × List Char) → List MdSection
  | [], _ => []
  | m :: rest, stack =>
    let title := pyStrip m.rawTitle
    let stack2 := (m.level, title) :: popGE m.level stack
    let cend := headStart t rest
    ⟨title, m.level, (stack2.map Prod.snd).reverse,
      pyStrip (sliceL t m.mend cend), m.mstart, m.mend, cend⟩ :: sectionsAux t rest stack2

def mdSections (t : List Char) : List MdSection :=
  sectionsAux t (findMatches t) []

/-- The exact return value of `extract_headings_and_content`:
`(heading_text, content, heading_path)` triples, the path joined with `/`. -/
def extract_headings_and_content (t : List Char) : List (List Char × List Char × List Char) :=
  (mdSections t).map (fun s => (s.title, s.content, joinSlash s.pathList))

/-!
JSON model.  `json.loads` is modelled by a fuelled recursive-descent
parser for the grammar Python json accepts by default: values with
surrounding JSON whitespace, `true`/`false`/`null`, `NaN`, `Infinity`,
`-Infinity`, numbers `-?(0|[1-9][0-9]*)(\.[0-9]+)?([eE][+-]?[0-9]+)?`
kept as their lexeme, strings with the eight escapes and `\uXXXX`
(surrogate pairs combined; a lone surrogate, which Python would keep as
an unpaired code unit, is not representable in `Char` and is rejected —
no claim depends on such inputs), arrays and objects with
last-wins duplicate keys.  Numbers are kept as lexemes because no claim
inspects numeric values.
-/

inductive JValue where
  | jnull
  | jbool (b : Bool)
  | jnum (lex : List Char)
  | jstr (s : List Char)
  | jarr (items : List JValue)
  | jobj (fields : List (List Char × JValue))

abbrev JDict := List (List Char × JValue)

/-- Python `d[k] = v`: replace in place when the key exists, else append. -/
def dictInsert (d : JDict) (k : List Char) (v : JValue) : JDict :=
  match d with
  | [] => [(k, v)]
  | (k2, v2) :: rest => if k2 == k then (k2, v) :: rest else (k2, v2) :: dictInsert rest k v

/-- Python `d.get(k)` / `k in d`. -/
def dictGet (d : JDict) (k : List Char) : Option JValue :=
  match d with
  | [] => none
  | (k2, v) :: rest => if k2 == k then some v else dictGet rest k

def isJsonWS (c : Char) : Bool :=
  c == ' ' || c == '\t' || c == '\n' || c == '\r'

def skipWS (s : List Char) : List Char :=
  s.dropWhile isJsonWS

def hexVal (c : Char) : Option Nat :=
  if '0' ≤ c ∧ c ≤ '9' then some (c.toNat - 48)
  else if 'a' ≤ c ∧ c ≤ 'f' then some (c.toNat - 87)
  else if 'A' ≤ c ∧ c ≤ 'F' then some (c.toNat - 55)
  else none

def hex4 (a b c d : Char) : Option Nat :=
  match hexVal a, hexVal b, hexVal c, hexVal d with
  | some x, some y, some z, some w => some (((x * 16 + y) * 16 + z) * 16 + w)
  | _, _, _, _ => none

def escChar : Char → Option Char
  | '"' => some '"'
  | '\\' => some '\\'
  | '/' => some '/'
  | 'b' => some (Char.ofNat 8)
  | 'f' => some (Char.ofNat 12)
  | 'n' => some (Char.ofNat 10)
  | 'r' => some (Char.ofNat 13)
  | 't' => some (Char.ofNat 9)
  | _ => none

/-- Body of a JSON string after the opening quote; returns the decoded
content and the remainder after the closing quote.  Control characters
below 0x20 are rejected (Python default `strict=True`). -/
def parseJString : Nat → List Char → Option (List Char × List Char)
  | 0, _ => none
  | fuel + 1, s =>
    match s with
    | [] => none
    | '"' :: rest => some ([], rest)
    | '\\' :: esc =>
      match esc with
      | 'u' :: a :: b :: c :: d :: rest =>
        match hex4 a b c d with
        | none => none
        | some n =>
          if 0xD800 ≤ n ∧ n ≤ 0xDBFF then
            match rest with
            | '\\' :: 'u' :: a2 :: b2 :: c2 :: d2 :: rest2 =>
              match hex4 a2 b2 c2 d2 with
              | some n2 =>
                if 0xDC00 ≤ n2 ∧ n2 ≤ 0xDFFF then
                  (parseJString fuel rest2).map
                    (fun pr => (Char.ofNat (0x10000 + (n - 0xD800) * 0x400 + (n2 - 0xDC00)) :: pr.1, pr.2))
                else none
              | none => none
            | _ => none
          else if 0xDC00 ≤ n ∧ n ≤ 0xDFFF then none
          else (parseJString fuel rest).map (fun pr => (Char.ofNat n :: pr.1, pr.2))
      | ec :: rest =>
        match escChar ec with
        | some c2 => (parseJString fuel rest).map (fun pr => (c2 :: pr.1, pr.2))
        | none => none
      | [] => none
    | c :: rest =>
      if c.toNat < 0x20 then none
      else (parseJString fuel rest).map (fun pr => (c :: pr.1, pr.2))

def isDigitC (c : Char) : Bool := c.isDigit

def parseIntPart (s : List Char) : Option (List Char × List Char) :=
  match s with
  | '0' :: rest => some (['0'], rest)
  | c :: rest =>
    if c.isDigit then some (c :: rest.takeWhile isDigitC, rest.dropWhile isDigitC) else none
  | [] => none

def parseFrac (s : List Char) : List Char × List Char :=
  match s with
  | '.' :: rest =>
    let ds := rest.takeWhile isDigitC
    if ds.isEmpty then ([], s) else ('.' :: ds, rest.dropWhile isDigitC)
  | _ => ([], s)

def parseExp (s : List Char) : List Char × List Char :=
  match s with
  | e :: sign :: rest2 =>
    if (e == 'e' || e == 'E') && (sign == '+' || sign == '-') then
      let ds := rest2.takeWhile isDigitC
      if ds.isEmpty then ([], s) else (e :: sign :: ds, rest2.dropWhile isDigitC)
    else if e == 'e' || e == 'E' then
      let ds := (sign :: rest2).takeWhile isDigitC
      if ds.isEmpty then ([], s) else (e :: ds, (sign :: rest2).dropWhile isDigitC)
    else ([], s)
  | [e] =>
    ([], [e])
  | [] => ([], [])

def parseNumber (s : List Char) : Option (List Char × List Char) :=
  match s with
  | '-' :: rest =>
    match parseIntPart rest with
    | none => none
    | some (ip, r1) =>
      let fe := parseFrac r1
      let ex := parseExp fe.2
      some ('-' :: (ip ++ fe.1 ++ ex.1), ex.2)
  | _ =>
    match parseIntPart s with
    | none => none
    | some (ip, r1) =>
      let fe := parseFrac r1
      let ex := parseExp fe.2
      some (ip ++ fe.1 ++ ex.1, ex.2)

mutual

def parseValue : Nat → List Char → Option (JValue × List Char)
  | 0, _ => none
  | fuel + 1, s =>
    match s with
    | '{' :: rest =>
      match skipWS rest with
      | '}' :: r2 => some (JValue.jobj [], r2)
      | r1 => (parseObjItems fuel r1 []).map (fun pr => (JValue.jobj pr.1, pr.2))
    | '[' :: rest =>
      match skipWS rest with
      | ']' :: r2 => some (JValue.jarr [], r2)
      | r1 => (parseArrItems fuel r1).map (fun pr => (JValue.jarr pr.1, pr.2))
    | '"' :: rest => (parseJString (rest.length + 1) rest).map (fun pr => (JValue.jstr pr.1, pr.2))
    | 't' :: rest => if startsWithL "rue".data rest then some (JValue.jbool true, rest.drop 3) else none
    | 'f' :: rest => if startsWithL "alse".data rest then some (JValue.jbool false, rest.drop 4) else none
    | 'n' :: rest => if startsWithL "ull".data rest then some (JValue.jnull, rest.drop 3) else none
    | 'N' :: rest => if startsWithL "aN".data rest then some (JValue.jnum "NaN".data, rest.drop 2) else none
    | 'I' :: rest =>
      if startsWithL "nfinity".data rest then some (JValue.jnum "Infinity".data, rest.drop 7) else none
    | '-' :: rest =>
      if startsWithL "Infinity".data rest then some (JValue.jnum "-Infinity".data, rest.drop 8)
      else (parseNumber s).map (fun pr => (JValue.jnum pr.1, pr.2))
    | _ => (parseNumber s).map (fun pr => (JValue.jnum pr.1, pr.2))

def parseArrItems : Nat → List Char → Option (List JValue × List Char)
  | 0, _ => none
  | fuel + 1, s =>
    match parseValue fuel s with
    | none => none
    | some (v, r1) =>
      match skipWS r1 with
      | ',' :: r2 => (parseArrItems fuel (skipWS r2)).map (fun pr => (v :: pr.1, pr.2))
      | ']' :: r2 => some ([v], r2)
      | _ => none

def parseObjItems : Nat → List Char → JDict → Option (JDict × List Char)
  | 0, _, _ => none
  | fuel + 1, s, acc =>
    match s with
    | '"' :: r0 =>
      match parseJString (r0.length + 1) r0 with
      | none => none
      | some (key, r1) =>
        match skipWS r1 with
        | ':' :: r2 =>
          match parseValue fuel (skipWS r2) with
          | none => none
          | some (v, r3) =>
            match skipWS r3 with
            | ',' :: r4 => parseObjItems fuel (skipWS r4) (dictInsert acc key v)
            | '}' :: r4 => some (dictInsert acc key v, r4)
            | _ => none
        | _ => none
    | _ => none

end

/-- Python `json.loads`: a single JSON value with surrounding whitespace
and nothing after it.  The fuel bounds recursion depth; every two units
of fuel consume at least one character, so `2 * length + 8` never runs
out on accepted input. -/
def json_loads (s : List Char) : Option JValue :=
  match parseValue (2 * s.length + 8) (skipWS s) with
  | none => none
  | some (v, rest) => if (skipWS rest).isEmpty then some v else none

def isJObj : JValue → Bool
  | JValue.jobj _ => true
  | _ => false

def asObjFields : JValue → JDict
  | JValue.jobj f => f
  | _ => []

/-!
Model of `re.search(r"\x60\x60\x60(?:json)?\s*([\s\S]*?)\s*\x60\x60\x60", text)`
followed by `group(1)`.  At the first fence that has a closing fence, the
optional `json` tag is consumed only when it immediately follows the
opening backticks; the greedy `\s*` borders and the lazy middle group
make group 1 equal to the text up to the earliest closing fence with
surrounding whitespace stripped.  When the tag is present no closing
fence can hide inside it (it contains no backtick), so tag consumption
needs no backtracking.
-/

def fenceGroup : List Char → Option (List Char)
  | [] => none
  | c :: rest =>
    if startsWithL "```".data (c :: rest) then
      let afterOpen := (c :: rest).drop 3
      let body := if startsWithL "json".data afterOpen then afterOpen.drop 4 else afterOpen
      match findSubIdx "```".data body with
      | some j => some (pyStrip (body.take j))
      | none => fenceGroup rest
    else fenceGroup rest

/-- The candidate JSON text: the fenced group when a fenced block exists,
otherwise the whole reply (`json_str = response_text`). -/
def extractCandidate (t : List Char) : List Char :=
  (fenceGroup t).getD t

/-!
Template rendering.  LangChain renders these f-string templates through
Python `str.format`, so rendering is NOT infallible: a template with
unescaped braces raises before the completion capability is ever
invoked.  `pyFormatFields` models the `str.format` template scan: a
replacement field runs from an unescaped open brace to the first `:`,
`!` or closing brace, a format spec after `:` runs to its matching
closing brace, doubled braces are literals, and a lone closing brace
fails the whole parse (`ValueError`).  `pyFormatOk` then says whether
`format` called with the given keyword names renders at all: `format`
raises `KeyError` exactly when some parsed field name is not a provided
key.  The template texts below are the exact strings of prompts.py
(each checked character for character).  The V2 implicit template
(prompts.py lines 223-261) is brace-escaped like the other whole-file
templates and renders; it is not embedded because its scan exceeds what
definitional evaluation handles comfortably, and no claim turns on it.
-/

def isFieldEnd (c : Char) : Bool := c == ':' || c == '!' || c == '\x7d'

/-- List length with an accumulator, kept tail-recursive so that closed
template scans reduce iteratively during definitional evaluation. -/
def listLen {α : Type} : List α → Nat → Nat
  | [], acc => acc
  | _ :: l, acc => listLen l (acc + 1)

def skipFormatSpec : Nat → Nat → List Char → Option (List Char)
  | 0, _, _ => none
  | _, _, [] => none
  | fuel + 1, depth, c :: rest =>
    if c == '\x7d' then
      if depth = 0 then some rest else skipFormatSpec fuel (depth - 1) rest
    else if c == '\x7b' then skipFormatSpec fuel (depth + 1) rest
    else skipFormatSpec fuel depth rest

def formatFieldsAux : Nat → List Char → List (List Char) → Option (List (List Char))
  | 0, _, _ => none
  | _, [], acc => some acc.reverse
  | fuel + 1, c :: rest, acc =>
    if c == '\x7b' then
      match rest with
      | '\x7b' :: rest2 => formatFieldsAux fuel rest2 acc
      | _ =>
        let name := rest.takeWhile (fun c2 => !isFieldEnd c2)
        match rest.dropWhile (fun c2 => !isFieldEnd c2) with
        | '\x7d' :: rest2 => formatFieldsAux fuel rest2 (name :: acc)
        | ':' :: rest2 =>
          match skipFormatSpec (listLen rest2 1) 0 rest2 with
          | some rest3 => formatFieldsAux fuel rest3 (name :: acc)
          | none => none
        | '!' :: _ :: '\x7d' :: rest2 => formatFieldsAux fuel rest2 (name :: acc)
        | '!' :: _ :: ':' :: rest2 =>
          match skipFormatSpec (listLen rest2 1) 0 rest2 with
          | some rest3 => formatFieldsAux fuel rest3 (name :: acc)
          | none => none
        | _ => none
    else if c == '\x7d' then
      match rest with
      | '\x7d' :: rest2 => formatFieldsAux fuel rest2 acc
      | _ => none
    else formatFieldsAux fuel rest acc

/-- The replacement-field names `str.format` parses out of a template,
in order, or `none` when the scan itself fails. -/
def pyFormatFields (template : List Char) : Option (List (List Char)) :=
  formatFieldsAux (listLen template 1) template []

/-- Whether `template.format(**keys)` renders without raising. -/
def pyFormatOk (template : List Char) (keys : List (List Char)) : Bool :=
  match pyFormatFields template with
  | some fields => fields.all (fun f => keys.contains f)
  | none => false

/-- The exact template text of `QA_GENERATION_PROMPT` in prompts.py. -/
def QA_GENERATION_PROMPT_TEXT : List Char :=
  ("\nYou are an expert knowledge extractor. Your task is to generate comprehensive question-answer pairs \nfrom the provided documentation section.\n\n# SECTION HEADING\n\x7bheading\x7d\n\n# SECTION CONTENT\n\x7bcontent\x7d\n\n# INSTRUCTIONS\n1. Generate \x7bnum_questions\x7d question-answer pairs that thoroughly cover the content in this section.\n2. Ensure the questions explore different aspects and collectively cover all information in the section.\n3. Questions should be clear, specific, and directly answerable from the content.\n4. Answers should be comprehensive, accurate, and directly based on the provided content.\n5. Do not introduce information that isn\x27t present in the content.\n\n# OUTPUT FORMAT\nReturn your response in the following JSON format:\n```json\n[\n  \x7b\n    \"question\": \"Question 1?\",\n    \"answer\": \"Answer to question 1.\"\n  \x7d,\n  \x7b\n    \"question\": \"Question 2?\",\n    \"answer\": \"Answer to question 2.\"\n  \x7d\n]\n```\n\nGenerate \x7bnum_questions\x7d question-answer pairs:\n").data

/-- The exact template text of `QUESTION_COUNT_PROMPT` in prompts.py. -/
def QUESTION_COUNT_PROMPT_TEXT : List Char :=
  ("\nGiven the following section from a document, determine how many question-answer pairs would be needed \nto thoroughly cover all the information. Consider:\n\n1. The length of the content\n2. The number of distinct concepts or points\n3. The complexity of the information\n\n# SECTION HEADING\n\x7bheading\x7d\n\n# SECTION CONTENT\n\x7bcontent\x7d\n\n# INSTRUCTIONS\nAnalyze the content and determine the optimal number of questions needed to cover all information.\nReturn only a single number between 1 and 10.\n\nNumber of questions:\n").data

/-- The exact template text of `WHOLE_FILE_QA_GENERATION_PROMPT` in prompts.py. -/
def WHOLE_FILE_QA_GENERATION_PROMPT_TEXT : List Char :=
  ("\nYou are an expert knowledge extractor. Your task is to analyze an entire documentation file and generate comprehensive question-answer pairs that cover all the important topics and content.\n\n# FILE CONTENT\n\x7bcontent\x7d\n\n# INSTRUCTIONS\n1. First, identify the main topics/sections in this documentation file.\n2. For each topic/section, generate multiple question-answer pairs that thoroughly cover all the key information.\n3. Ensure your questions and answers collectively cover ALL important information in the document.\n4. Questions should be clear, specific, and directly answerable from the content.\n5. Answers should be comprehensive, accurate, and directly based on the provided content.\n6. Do not introduce information that isn\x27t present in the content.\n7. Generate approximately \x7bnum_questions\x7d question-answer pairs in total, distributed appropriately across topics.\n\n# OUTPUT FORMAT\nReturn your response in the following JSON format:\n```json\n[\n  \x7b\x7b\n    \"question\": \"Question 1?\",\n    \"answer\": \"Answer to question 1.\",\n    \"topic\": \"Topic/section this QA relates to\"\n  \x7d\x7d\n]\n```\n\nGenerate question-answer pairs that comprehensively cover the entire document:\n").data

/-- The keyword names of `QA_GENERATION_PROMPT.format(...)` at qa-gen.py
lines 159-163. -/
def qaGenerationKeys : List (List Char) :=
  ["heading".data, "content".data, "num_questions".data]

/-- The keyword names of `QUESTION_COUNT_PROMPT.format(...)` at
qa-gen.py lines 130-133. -/
def questionCountKeys : List (List Char) :=
  ["heading".data, "content".data]

/-- The keyword names of `WHOLE_FILE_QA_GENERATION_PROMPT.format(...)`
at simple_qa_gen.py lines 102-105. -/
def wholeFileKeys : List (List Char) :=
  ["content".data, "num_questions".data]

/-!
The LLM boundary.  The completion capability is a function from prompts
to either a reply text or a raised exception; prompt rendering is a
constructor per rendered template.  `generate_qa_pairs` additionally
returns the list of completion calls it performed, making "no call
happens" a provable statement.
-/

inductive Prompt where
  | countPrompt (heading content : List Char)
  | qaPrompt (heading content : List Char) (numQuestions : Nat)
  | wholeFilePrompt (content : List Char) (numQuestions : Nat)
  | wholeFileImplicitPrompt (content : List Char)

abbrev LLM := Prompt → Except Unit (List Char)

def firstDigitRun : List Char → Option (List Char)
  | [] => none
  | c :: rest => if c.isDigit then some (c :: rest.takeWhile isDigitC) else firstDigitRun rest

/-- Python `int()` of a digit string. -/
def natOfDigits (ds : List Char) : Nat :=
  ds.foldl (fun n c => n * 10 + (c.toNat - 48)) 0

/-- `MarkdownQAGenerator.determine_question_count`: invoke the sizing
prompt; on the stripped reply, `re.search(r"\d+", ...)` takes the first
digit run, `min(max(count, 1), 10)` clamps it; 3 on no digits or on any
exception. -/
def determine_question_count (llm : LLM) (heading content : List Char) : Nat :=
  match llm (Prompt.countPrompt heading content) with
  | Except.error _ => 3
  | Except.ok reply =>
    match firstDigitRun (pyStrip reply) with
    | some ds => min (max (natOfDigits ds) 1) 10
    | none => 3

/-- `SimpleMarkdownQAGenerator.estimate_question_count`:
`max(3, min(20, char_count // 200))`. -/
def estimate_question_count (content : List Char) : Nat :=
  max 3 (min 20 (content.length / 200))

def sourceKey : List Char := "source".data

def topicKey : List Char := "topic".data

/-- `MarkdownQAGenerator.generate_qa_pairs`.  Empty (after strip) content
returns immediately with no completion call.  Otherwise the sizing call
happens inside `determine_question_count` (which absorbs its own
failures); the code then evaluates `QA_GENERATION_PROMPT.format(...)`
inside the `try`, and because that template's JSON output example
(prompts.py lines 150-159) is not brace-escaped, `str.format` raises
`KeyError` there on every call — before `llm.invoke` is reached — and
the `except` returns `[]` (see `qa_generation_template_broken`).  The
then-branch below mirrors the source lines 158-183 that this failure
makes unreachable: were the template rendered, any exception from the
call, from `json.loads`, or from the `qa_pair["source"] = ...` loop
(which raises `TypeError` on every non-dict element and on iteration
over a non-empty dict or string) would be caught and yield `[]`, and a
parsed empty dict or empty string would fall through the loop and
contribute no records.  The second component lists the completion calls
performed. -/
def generate_qa_pairs (llm : LLM) (heading content source_path : List Char) :
    List JDict × List Prompt :=
  if pyStrip content = [] then ([], [])
  else
    let n := determine_question_count llm heading content
    if pyFormatOk QA_GENERATION_PROMPT_TEXT qaGenerationKeys then
      let calls := [Prompt.countPrompt heading content, Prompt.qaPrompt heading content n]
      match llm (Prompt.qaPrompt heading content n) with
      | Except.error _ => ([], calls)
      | Except.ok text =>
        match json_loads (extractCandidate text) with
        | none => ([], calls)
        | some (JValue.jarr items) =>
          if items.all isJObj then
            (items.map (fun v => dictInsert (asObjFields v) sourceKey (JValue.jstr source_path)),
             calls)
          else ([], calls)
        | some _ => ([], calls)
    else ([], [Prompt.countPrompt heading content])

/-- `MarkdownQAGenerator.process_markdown_file`: the file read outcome is
passed in as an `Except`; a read failure is caught by the surrounding
`try` and the accumulated (empty) list is returned.  For each extracted
section, `source_path = f"{rel_path}/{heading_path}"`. -/
def process_markdown_file (llm : LLM) (rel_path : List Char)
    (readResult : Except Unit (List Char)) : List JDict :=
  match readResult with
  | Except.error _ => []
  | Except.ok md =>
    ((extract_headings_and_content md).map
      (fun tr => (generate_qa_pairs llm tr.1 tr.2.1 (rel_path ++ '/' :: tr.2.2)).1)).flatten

/-- `MarkdownQAGenerator.run`: process each file, extend the accumulator. -/
def runPipeline (llm : LLM) (docs : List (List Char × Except Unit (List Char))) : List JDict :=
  (docs.map (fun d => process_markdown_file llm d.1 d.2)).flatten

/-- The source paths `process_markdown_file` composes before entering the
extractor (qa-gen.py lines 199-205): one per extracted section,
`source_path = f"{rel_path}/{heading_path}"`.  This string is built by
live code, whether or not the extractor later yields records. -/
def sectionSourcePaths (rel_path md : List Char) : List (List Char) :=
  (extract_headings_and_content md).map (fun tr => rel_path ++ '/' :: tr.2.2)

/-- `pathlib.PurePath.stem` of a POSIX-style path: the final component,
minus its suffix when the last dot is neither at position 0 of the name
nor its last character. -/
def pathStem (p : List Char) : List Char :=
  let name := (p.reverse.takeWhile (fun c => !(c == '/'))).reverse
  match name.reverse.findIdx? (fun c => c == '.') with
  | none => name
  | some r =>
    let i := name.length - 1 - r
    if 0 < i ∧ i < name.length - 1 then name.take i else name

mutual

/-- Python `repr` of a JSON-parsed value, used inside containers.
Approximations, none reachable from any claim: strings are always
single-quoted without escaping, and floats print as their source
lexeme. -/
def reprJ : JValue → List Char
  | JValue.jnull => "None".data
  | JValue.jbool true => "True".data
  | JValue.jbool false => "False".data
  | JValue.jnum lex => lex
  | JValue.jstr s => '\'' :: (s ++ ['\''])
  | JValue.jarr items => '[' :: (List.intercalate ", ".data (reprJList items) ++ [']'])
  | JValue.jobj fields => '\x7b' :: (List.intercalate ", ".data (reprJFields fields) ++ ['\x7d'])

def reprJList : List JValue → List (List Char)
  | [] => []
  | v :: vs => reprJ v :: reprJList vs

def reprJFields : List (List Char × JValue) → List (List Char)
  | [] => []
  | (k, v) :: fs => ('\'' :: (k ++ ['\''] ++ ": ".data ++ reprJ v)) :: reprJFields fs

end

/-- Python `str()` as used by the f-string `f"{rel_path}/{qa_pair['topic']}"`:
the identity on strings, `repr`-like otherwise (the number caveat of
`reprJ` applies; every claim constrains the topic to be a string or
absent). -/
def strJ : JValue → List Char
  | JValue.jstr s => s
  | v => reprJ v

/-- The per-record loop of `SimpleMarkdownQAGenerator.process_file`:
`if "topic" not in qa_pair: qa_pair["topic"] = file_path.stem` then
`qa_pair["source"] = f"{rel_path}/{qa_pair['topic']}"`. -/
def finishRecord (rel_path stem : List Char) (d : JDict) : JDict :=
  let d1 := match dictGet d topicKey with
            | some _ => d
            | none => dictInsert d topicKey (JValue.jstr stem)
  let tv := (dictGet d topicKey).getD (JValue.jstr stem)
  dictInsert d1 sourceKey (JValue.jstr (rel_path ++ '/' :: strJ tv))

/-- `SimpleMarkdownQAGenerator.process_file` (simple_qa_gen.py): any
failure — read error, completion error, unparsable JSON, non-list top
level, non-dict element (the membership test or item assignment raises
`TypeError`) — is caught and `[]` returned.  Its template is
brace-escaped and renders (`whole_file_template_renders`), so the
completion call is reached.  A parsed empty dict or
empty string is returned unchanged and contributes no records. -/
def simple_process_file (llm : LLM) (rel_path : List Char)
    (readResult : Except Unit (List Char)) : List JDict :=
  match readResult with
  | Except.error _ => []
  | Except.ok content =>
    match llm (Prompt.wholeFilePrompt content (estimate_question_count content)) with
    | Except.error _ => []
    | Except.ok text =>
      match json_loads (extractCandidate text) with
      | none => []
      | some (JValue.jarr items) =>
        if items.all isJObj then
          items.map (fun v => finishRecord rel_path (pathStem rel_path) (asObjFields v))
        else []
      | some _ => []

def simple_run (llm : LLM) (docs : List (List Char × Except Unit (List Char))) : List JDict :=
  (docs.map (fun d => simple_process_file llm d.1 d.2)).flatten

/-- `SimpleMarkdownQAGenerator.process_file` of
qa-gen_implicit-n-questions.py: same pipeline (the V2 prompt takes only
the content; the estimated count is computed and logged but unused; the V2
template is brace-escaped, prompts.py lines 252-260, so it renders), but
the `except` clause ends in `raise e`, so every failure propagates; the
`return []` after it is unreachable.  `logger.info(f"Parsed
{len(qa_pairs)} ...")` raises `TypeError` on a non-sized payload, and
the topic loop raises on every non-dict element, so only a list of
dicts, an empty dict, or an empty string survive to the return. -/
def implicit_process_file (llm : LLM) (rel_path : List Char)
    (readResult : Except Unit (List Char)) : Except Unit (List JDict) :=
  match readResult with
  | Except.error e => Except.error e
  | Except.ok content =>
    match llm (Prompt.wholeFileImplicitPrompt content) with
    | Except.error e => Except.error e
    | Except.ok text =>
      match json_loads (extractCandidate text) with
      | none => Except.error ()
      | some (JValue.jarr items) =>
        if items.all isJObj then
          Except.ok (items.map (fun v => finishRecord rel_path (pathStem rel_path) (asObjFields v)))
        else Except.error ()
      | some (JValue.jobj []) => Except.ok []
      | some (JValue.jstr []) => Except.ok []
      | some _ => Except.error ()

/-- The `run` loop of qa-gen_implicit-n-questions.py: the exception
re-raised by `process_file` aborts the whole batch (nothing is saved). -/
def implicit_run (llm : LLM) (docs : List (List Char × Except Unit (List Char))) :
    Except Unit (List JDict) :=
  match docs with
  | [] => Except.ok []
  | d :: rest =>
    match implicit_process_file llm d.1 d.2 with
    | Except.error e => Except.error e
    | Except.ok recs => (implicit_run llm rest).map (fun others => recs ++ others)

/-!
Span facts about the matcher: every match lies inside the text, is
nonempty, and matches returned by the scan are ordered and
non-overlapping.  These drive the content-partition results.
-/

theorem backtrackJ_spec (t : List Char) (q : Nat) :
    ∀ n j, backtrackJ t q n = some j → 1 ≤ j ∧ q + j < t.length := by
  intro n
  induction n with
  | zero => intro j h; simp [backtrackJ] at h
  | succ m ih =>
    intro j h
    rw [backtrackJ] at h
    split at h
    · rename_i hcond
      cases h
      exact ⟨by omega, by omega⟩
    · exact ih j h

theorem matchAt_spec (t : List Char) (p : Nat) (m : HMatch)
    (h : matchAt t p = some m) :
    m.mstart = p ∧ p < m.mend ∧ m.mend ≤ t.length ∧ 1 ≤ m.level := by
  simp only [matchAt] at h
  split at h
  · exact Option.noConfusion h
  · rename_i hk
    split at h
    · exact Option.noConfusion h
    · split at h
      · exact Option.noConfusion h
      · rename_i j hj
        cases h
        have hj2 := backtrackJ_spec t _ _ _ hj
        have hkpos : 1 ≤ ((t.drop p).takeWhile (fun c => c == '#')).length := by
          rcases Nat.eq_zero_or_pos ((t.drop p).takeWhile (fun c => c == '#')).length with h0 | h1
          · exact absurd (Or.inl h0) hk
          · exact h1
        have htl : ((t.drop (p + ((t.drop p).takeWhile (fun c => c == '#')).length + j)).takeWhile
            (fun c => !(c == '\n'))).length ≤ t.length -
            (p + ((t.drop p).takeWhile (fun c => c == '#')).length + j) := by
          calc _ ≤ (t.drop (p + ((t.drop p).takeWhile (fun c => c == '#')).length + j)).length :=
                (List.takeWhile_sublist _).length_le
            _ = _ := List.length_drop _ _
        refine ⟨rfl, ?_, ?_, hkpos⟩
        · dsimp only
          omega
        · dsimp only
          omega

/-- The spans of a match list starting no earlier than `p`: ordered,
non-overlapping, inside the text. -/
def SpanOK (t : List Char) : Nat → List HMatch → Prop
  | _, [] => True
  | p, m :: rest => p ≤ m.mstart ∧ m.mstart ≤ m.mend ∧ m.mend ≤ t.length ∧ SpanOK t m.mend rest

theorem spanOK_mono (t : List Char) (ms : List HMatch) :
    ∀ p q, SpanOK t p ms → q ≤ p → SpanOK t q ms := by
  cases ms with
  | nil => intro p q _ _; trivial
  | cons m rest =>
    intro p q h hq
    exact ⟨le_trans hq h.1, h.2⟩

theorem findFrom_spanOK (t : List Char) :
    ∀ fuel p, SpanOK t p (findFrom t fuel p) := by
  intro fuel
  induction fuel with
  | zero => intro p; rw [findFrom]; trivial
  | succ n ih =>
    intro p
    rw [findFrom]
    split
    · trivial
    · cases hm : (if lineStart t p then matchAt t p else none) with
      | none =>
        exact spanOK_mono t _ (p + 1) p (ih (p + 1)) (by omega)
      | some m =>
        have hma : matchAt t p = some m := by
          by_cases hls : lineStart t p
          · rwa [if_pos hls] at hm
          · rw [if_neg hls] at hm; exact Option.noConfusion hm
        obtain ⟨e1, e2, e3, e4⟩ := matchAt_spec t p m hma
        exact ⟨by omega, by omega, e3, ih m.mend⟩

theorem sliceL_append (t : List Char) (a b c : Nat) (hab : a ≤ b) (hbc : b ≤ c) :
    sliceL t a b ++ sliceL t b c = sliceL t a c := by
  unfold sliceL
  have h1 : c - a = (b - a) + (c - b) := by omega
  rw [h1, List.take_add]
  congr 2
  rw [List.drop_drop]
  congr 1
  omega

/-- The text from `p` on, rebuilt from heading spans and the raw content
spans between them. -/
def glueSpans (t : List Char) : Nat → List HMatch → List Char
  | p, [] => sliceL t p t.length
  | p, m :: rest => sliceL t p m.mstart ++ (sliceL t m.mstart m.mend ++ glueSpans t m.mend rest)

theorem glueSpans_eq (t : List Char) :
    ∀ ms p, p ≤ t.length → SpanOK t p ms → glueSpans t p ms = sliceL t p t.length := by
  intro ms
  induction ms with
  | nil => intro p _ _; rfl
  | cons m rest ih =>
    intro p hp hok
    obtain ⟨h1, h2, h3, h4⟩ := hok
    rw [glueSpans, ih m.mend h3 h4, sliceL_append t m.mstart m.mend t.length h2 h3,
      sliceL_append t p m.mstart t.length h1 (le_trans h2 h3)]

theorem headStart_cons (t : List Char) (m : HMatch) (rest : List HMatch) :
    headStart t (m :: rest) = m.mstart := rfl

theorem sectionsAux_spans (t : List Char) :
    ∀ ms stack p,
      sliceL t p (headStart t ms) ++
        ((sectionsAux t ms stack).map
          (fun s => sliceL t s.hstart s.hend ++ sliceL t s.hend s.cend)).flatten
      = glueSpans t p ms := by
  intro ms
  induction ms with
  | nil => intro stack p; simp [sectionsAux, glueSpans, headStart]
  | cons m rest ih =>
    intro stack p
    simp only [sectionsAux, headStart_cons, List.map_cons, List.flatten_cons, glueSpans]
    rw [← ih ((m.level, pyStrip m.rawTitle) :: popGE m.level stack) m.mend]
    simp [List.append_assoc]

/-- The document as the code sees it: the preamble before the first
heading, then alternately each heading line (match span) and the raw
text governed by it. -/
def reconstructFromSections (t : List Char) : List Char :=
  sliceL t 0 (headStart t (findMatches t)) ++
    ((mdSections t).map (fun s => sliceL t s.hstart s.hend ++ sliceL t s.hend s.cend)).flatten

theorem reconstructFromSections_eq (t : List Char) : reconstructFromSections t = t := by
  unfold reconstructFromSections mdSections
  rw [sectionsAux_spans t (findMatches t) [] 0,
    glueSpans_eq t (findMatches t) 0 (Nat.zero_le _) (findFrom_spanOK t _ 0)]
  unfold sliceL
  simp

theorem sectionsAux_content (t : List Char) :
    ∀ ms stack,
      (sectionsAux t ms stack).map (fun s => s.content)
      = (sectionsAux t ms stack).map (fun s => pyStrip (sliceL t s.hend s.cend)) := by
  intro ms
  induction ms with
  | nil => intro stack; rfl
  | cons m rest ih =>
    intro stack
    simp only [sectionsAux, List.map_cons]
    rw [ih]

/-!
Heading-path machinery.  `pushHeading`/`specHeadingPaths` restate the
stack maintenance in the words of the specification (a bottom-first
stack, popping every entry whose level is ≥ the current level from the
top before appending); `sectionsAux` keeps its stack top-first, and the
two agree up to reversal.
-/

/-- Stack update as the specification words it, on a bottom-first stack:
pop every entry whose level is ≥ the current level, then push. -/
def pushHeading (stack : List (Nat × List Char)) (level : Nat) (title : List Char) :
    List (Nat × List Char) :=
  (stack.reverse.dropWhile (fun e => decide (level ≤ e.1))).reverse ++ [(level, title)]

def specPathsAux : List HMatch → List (Nat × List Char) → List (List (List Char))
  | [], _ => []
  | m :: rest, stack =>
    let stack2 := pushHeading stack m.level (pyStrip m.rawTitle)
    stack2.map Prod.snd :: specPathsAux rest stack2

/-- The heading paths of a document, computed as the specification
describes the algorithm. -/
def specHeadingPaths (t : List Char) : List (List (List Char)) :=
  specPathsAux (findMatches t) []

theorem pushHeading_rev (stack : List (Nat × List Char)) (level : Nat) (title : List Char) :
    pushHeading stack.reverse level title = ((level, title) :: popGE level stack).reverse := by
  unfold pushHeading popGE
  rw [List.reverse_reverse, List.reverse_cons]

theorem sectionsAux_paths (t : List Char) :
    ∀ ms stack,
      (sectionsAux t ms stack).map (fun s => s.pathList) = specPathsAux ms stack.reverse := by
  intro ms
  induction ms with
  | nil => intro stack; rfl
  | cons m rest ih =>
    intro stack
    simp only [sectionsAux, List.map_cons, specPathsAux]
    rw [pushHeading_rev, List.map_reverse, ih ((m.level, pyStrip m.rawTitle) :: popGE m.level stack)]
    rfl

/-!
Stack-shape invariants for C9: the stack levels are strictly increasing
from bottom to top (top-first storage: strictly decreasing head to
tail), every level is at least 1, hence the stack never grows beyond the
level of its top element.
-/

theorem dropWhile_head_false {α : Type} (p : α → Bool) :
    ∀ (l : List α) (x : α) (xs : List α), l.dropWhile p = x :: xs → p x = false := by
  intro l
  induction l with
  | nil => intro x xs h; simp [List.dropWhile] at h
  | cons a l ih =>
    intro x xs h
    rw [List.dropWhile_cons] at h
    by_cases hp : p a = true
    · rw [if_pos hp] at h
      exact ih x xs h
    · rw [if_neg hp] at h
      cases h
      simpa using hp

theorem chain_dropWhile {α : Type} (R : α → α → Prop) (p : α → Bool) :
    ∀ l : List α, List.Chain' R l → List.Chain' R (l.dropWhile p) := by
  intro l
  induction l with
  | nil => intro h; exact h
  | cons a l ih =>
    intro h
    rw [List.dropWhile_cons]
    by_cases hp : p a = true
    · rw [if_pos hp]; exact ih h.tail
    · rw [if_neg hp]; exact h

theorem chain_len :
    ∀ st : List (Nat × List Char), List.Chain' (fun a b => b.1 < a.1) st →
      (∀ e ∈ st, 1 ≤ e.1) → ∀ (x : Nat × List Char) (rest2 : List (Nat × List Char)),
        st = x :: rest2 → st.length ≤ x.1 := by
  intro st
  induction st with
  | nil => intro _ _ x r h; cases h
  | cons a l ih =>
    intro hc h1 x r heq
    cases heq
    cases l with
    | nil => simpa using h1 a (List.mem_cons_self a [])
    | cons b l2 =>
      obtain ⟨hab, hl⟩ := List.chain'_cons.mp hc
      have hrec := ih hl (fun e he => h1 e (List.mem_cons_of_mem a he)) b l2 rfl
      simp only [List.length_cons] at hrec ⊢
      omega

theorem findFrom_levels (t : List Char) :
    ∀ fuel p m, m ∈ findFrom t fuel p → 1 ≤ m.level := by
  intro fuel
  induction fuel with
  | zero => intro p m h; rw [findFrom] at h; cases h
  | succ n ih =>
    intro p m h
    rw [findFrom] at h
    split at h
    · cases h
    · cases hm : (if lineStart t p then matchAt t p else none) with
      | none =>
        rw [hm] at h
        exact ih _ m h
      | some m2 =>
        rw [hm] at h
        rcases List.mem_cons.mp h with h1 | h2
        · subst h1
          have hma : matchAt t p = some m := by
            by_cases hls : lineStart t p
            · rwa [if_pos hls] at hm
            · rw [if_neg hls] at hm; exact Option.noConfusion hm
          exact (matchAt_spec t p m hma).2.2.2
        · exact ih _ m h2

theorem sectionsAux_pathInv (t : List Char) :
    ∀ ms stack,
      List.Chain' (fun a b => b.1 < a.1) stack →
      (∀ e ∈ stack, 1 ≤ e.1) →
      (∀ mm ∈ ms, 1 ≤ mm.level) →
      ∀ s ∈ sectionsAux t ms stack,
        s.pathList.length ≤ s.level ∧ s.pathList.getLast? = some s.title := by
  intro ms
  induction ms with
  | nil =>
    intro stack _ _ _ s hs
    simp [sectionsAux] at hs
  | cons m rest ih =>
    intro stack hchain h1 hlev s hs
    have hpop_chain : List.Chain' (fun a b => b.1 < a.1) (popGE m.level stack) :=
      chain_dropWhile _ _ stack hchain
    have hchain2 : List.Chain' (fun a b => b.1 < a.1)
        ((m.level, pyStrip m.rawTitle) :: popGE m.level stack) := by
      rw [List.chain'_cons']
      refine ⟨?_, hpop_chain⟩
      intro b hb
      cases hx : popGE m.level stack with
      | nil => rw [hx] at hb; cases hb
      | cons x xs =>
        rw [hx] at hb
        have hbx : x = b := by simpa using hb
        subst hbx
        have hfalse := dropWhile_head_false _ stack x xs hx
        simp only [decide_eq_false_iff_not, not_le] at hfalse
        exact hfalse
    have h1b : ∀ e ∈ (m.level, pyStrip m.rawTitle) :: popGE m.level stack, 1 ≤ e.1 := by
      intro e he
      rcases List.mem_cons.mp he with he1 | he2
      · subst he1
        exact hlev m (List.mem_cons_self m rest)
      · exact h1 e ((List.dropWhile_sublist _).subset he2)
    simp only [sectionsAux] at hs
    rcases List.mem_cons.mp hs with hs1 | hs2
    · subst hs1
      constructor
      · dsimp only
        rw [List.length_reverse, List.length_map]
        exact chain_len _ hchain2 h1b _ _ rfl
      · dsimp only
        rw [List.getLast?_reverse]
        rfl
    · exact ih _ hchain2 h1b (fun mm hmm => hlev mm (List.mem_cons_of_mem m hmm)) s hs2

/-!
Facts for the delegated sizer: `.strip()` before the `\d+` search is
immaterial, because whitespace contains no digit, so the first digit run
of the stripped reply is the first digit run of the reply itself.
-/

theorem pySpace_not_digit (c : Char) (h : isPySpace c = true) : c.isDigit = false := by
  unfold isPySpace at h
  simp only [Bool.or_eq_true, beq_iff_eq] at h
  rcases h with ((((h | h) | h) | h) | h) | h <;> subst h <;> decide

theorem takeWhile_append_nodigit (w : List Char) (hw : ∀ c ∈ w, isDigitC c = false) :
    ∀ u : List Char, List.takeWhile isDigitC (u ++ w) = List.takeWhile isDigitC u := by
  intro u
  induction u with
  | nil =>
    simp only [List.nil_append, List.takeWhile_nil]
    cases w with
    | nil => rfl
    | cons c cs =>
      rw [List.takeWhile_cons, if_neg (by simp [hw c (List.mem_cons_self c cs)])]
  | cons a u ih =>
    simp only [List.cons_append, List.takeWhile_cons]
    by_cases hp : isDigitC a = true
    · rw [if_pos hp, if_pos hp, ih]
    · rw [if_neg hp, if_neg hp]

theorem firstDigitRun_ws_none :
    ∀ w : List Char, (∀ c ∈ w, isPySpace c = true) → firstDigitRun w = none := by
  intro w
  induction w with
  | nil => intro _; rfl
  | cons c cs ih =>
    intro hw
    have hd := pySpace_not_digit c (hw c (List.mem_cons_self c cs))
    rw [firstDigitRun, if_neg (by simp [hd])]
    exact ih fun c2 h2 => hw c2 (List.mem_cons_of_mem c h2)

theorem firstDigitRun_append_ws (w : List Char) (hw : ∀ c ∈ w, isPySpace c = true) :
    ∀ u : List Char, firstDigitRun (u ++ w) = firstDigitRun u := by
  intro u
  induction u with
  | nil => simpa using firstDigitRun_ws_none w hw
  | cons a u ih =>
    rw [List.cons_append, firstDigitRun, firstDigitRun]
    by_cases hp : a.isDigit = true
    · rw [if_pos hp, if_pos hp,
        takeWhile_append_nodigit w (fun c hc => by
          have := pySpace_not_digit c (hw c hc)
          simpa [isDigitC] using this) u]
    · rw [if_neg hp, if_neg hp]
      exact ih

theorem firstDigitRun_dropWhile_ws (u : List Char) :
    firstDigitRun (u.dropWhile isPySpace) = firstDigitRun u := by
  induction u with
  | nil => rfl
  | cons c cs ih =>
    rw [List.dropWhile_cons]
    by_cases hp : isPySpace c = true
    · rw [if_pos hp, ih]
      have hd := pySpace_not_digit c hp
      rw [firstDigitRun, if_neg (by simp [hd])]
    · rw [if_neg hp]

theorem firstDigitRun_pyStrip (s : List Char) :
    firstDigitRun (pyStrip s) = firstDigitRun s := by
  unfold pyStrip
  have hdecomp : s.dropWhile isPySpace =
      ((s.dropWhile isPySpace).reverse.dropWhile isPySpace).reverse ++
        ((s.dropWhile isPySpace).reverse.takeWhile isPySpace).reverse := by
    rw [← List.reverse_append, List.takeWhile_append_dropWhile, List.reverse_reverse]
  have hws : ∀ c ∈ ((s.dropWhile isPySpace).reverse.takeWhile isPySpace).reverse,
      isPySpace c = true := by
    intro c hc
    rw [List.mem_reverse] at hc
    exact List.mem_takeWhile_imp hc
  calc firstDigitRun ((s.dropWhile isPySpace).reverse.dropWhile isPySpace).reverse
      = firstDigitRun (((s.dropWhile isPySpace).reverse.dropWhile isPySpace).reverse ++
          ((s.dropWhile isPySpace).reverse.takeWhile isPySpace).reverse) :=
        (firstDigitRun_append_ws _ hws _).symm
    _ = firstDigitRun (s.dropWhile isPySpace) := by rw [← hdecomp]
    _ = firstDigitRun s := firstDigitRun_dropWhile_ws s

/-!
Dictionary lemmas for the provenance claims.
-/

theorem dictGet_insert_self (d : JDict) (k : List Char) (v : JValue) :
    dictGet (dictInsert d k v) k = some v := by
  induction d with
  | nil => simp [dictInsert, dictGet]
  | cons kv rest ih =>
    obtain ⟨k2, v2⟩ := kv
    rw [dictInsert]
    by_cases hk : (k2 == k) = true
    · rw [if_pos hk, dictGet, if_pos hk]
    · rw [if_neg hk, dictGet, if_neg hk]
      exact ih

theorem dictGet_insert_ne (d : JDict) (k k2 : List Char) (v : JValue)
    (h : ¬(k == k2) = true) :
    dictGet (dictInsert d k v) k2 = dictGet d k2 := by
  induction d with
  | nil => simp [dictInsert, dictGet, h]
  | cons kv rest ih =>
    obtain ⟨k3, v3⟩ := kv
    rw [dictInsert]
    by_cases hk : (k3 == k) = true
    · rw [if_pos hk]
      have hk3 : k3 = k := eq_of_beq hk
      subst hk3
      rw [dictGet, dictGet, if_neg h, if_neg h]
    · rw [if_neg hk, dictGet, dictGet]
      by_cases h2 : (k3 == k2) = true
      · rw [if_pos h2, if_pos h2]
      · rw [if_neg h2, if_neg h2]
        exact ih

theorem finishRecord_topic_source (rel stem : List Char) (d : JDict) :
    ∃ tv, dictGet (finishRecord rel stem d) topicKey = some tv
      ∧ dictGet (finishRecord rel stem d) sourceKey
        = some (JValue.jstr (rel ++ '/' :: strJ tv)) := by
  unfold finishRecord
  cases ht : dictGet d topicKey with
  | some tv0 =>
    refine ⟨tv0, ?_, ?_⟩
    · rw [dictGet_insert_ne _ _ _ _ (by decide)]
      simp [ht]
    · rw [dictGet_insert_self]
      simp [ht]
  | none =>
    refine ⟨JValue.jstr stem, ?_, ?_⟩
    · rw [dictGet_insert_ne _ _ _ _ (by decide), dictGet_insert_self]
    · rw [dictGet_insert_self]
      simp [ht]

/-!
Which templates render.  `QA_GENERATION_PROMPT` contains an unescaped
JSON example, so its parsed field list contains the example text as a
field name and `format(heading=..., content=..., num_questions=...)`
raises `KeyError`; the three other templates the modelled pipelines
render are brace-escaped and format cleanly (so is the V2 implicit
template, per the source).
-/

theorem qa_generation_template_broken :
    pyFormatOk QA_GENERATION_PROMPT_TEXT qaGenerationKeys = false := rfl

theorem question_count_template_renders :
    pyFormatOk QUESTION_COUNT_PROMPT_TEXT questionCountKeys = true := rfl

theorem whole_file_template_renders :
    pyFormatOk WHOLE_FILE_QA_GENERATION_PROMPT_TEXT wholeFileKeys = true := rfl

theorem zip_map_self {α β γ : Type} (h : α → β) (F : α × β → γ) :
    ∀ l : List α, (l.zip (l.map h)).map F = l.map (fun x => F (x, h x)) := by
  intro l
  induction l with
  | nil => rfl
  | cons a l ih => simp only [List.map_cons, List.zip_cons_cons, ih]

/-!
Concrete completion capabilities used by counterexamples and witnesses.
-/

def llmErrAll : LLM := fun _ => Except.error ()

def llmProse : LLM := fun _ => Except.ok ("no list in this reply".data)

def llmObjReply : LLM := fun _ => Except.ok ("\x7b\"a\": 1\x7d".data)

def llmNum : LLM := fun _ => Except.ok ("Use about 25 questions.".data)

def mixedItems : List JValue :=
  [JValue.jobj [("question".data, JValue.jstr []), ("answer".data, JValue.jstr [])],
   JValue.jobj [("question".data, JValue.jstr ("Q".data)),
                ("answer".data, JValue.jstr ("A".data))]]

def mixedReplyText : List Char :=
  "[\x7b\"question\": \"\", \"answer\": \"\"\x7d, \x7b\"question\": \"Q\", \"answer\": \"A\"\x7d]".data

def llmMixed : LLM := fun p =>
  match p with
  | Prompt.countPrompt _ _ => Except.ok ("2".data)
  | Prompt.qaPrompt _ _ _ => Except.ok mixedReplyText
  | _ => Except.error ()

def demoLLM : LLM := fun p =>
  match p with
  | Prompt.countPrompt _ _ => Except.ok ("3".data)
  | Prompt.qaPrompt _ _ _ =>
    Except.ok ("```json\n[\x7b\"question\": \"Q1?\", \"answer\": \"A1\"\x7d]\n```".data)
  | Prompt.wholeFilePrompt _ _ =>
    Except.ok ("[\x7b\"question\": \"Q1?\", \"answer\": \"A1\"\x7d]".data)
  | _ => Except.error ()

def llmWhole : LLM := fun p =>
  match p with
  | Prompt.wholeFileImplicitPrompt _ =>
    Except.ok ("[\x7b\"question\": \"q\", \"answer\": \"a\"\x7d]".data)
  | _ => Except.error ()

def twoDocs : List (List Char × Except Unit (List Char)) :=
  [("a.md".data, Except.error ()), ("b.md".data, Except.ok ("# B\ntext".data))]

def demoMD : List Char := "# Setup\n## Install\nUse the installer.".data

def dummySection : MdSection := ⟨[], 0, [], [], 0, 0, 0⟩

/-- C1 (counterexample).  On `"# A\nx \n"` the only section has content
`"x"`: it is not the exact substring from the end of its heading line to
the end of the document (which is `"\nx \n"`), and reinserting the
heading line before each content value does not reconstruct the text. -/
theorem c1_counterexample :
    ((mdSections ("# A\nx \n".data)).map (fun s => s.content)
      ≠ (mdSections ("# A\nx \n".data)).map
          (fun s => sliceL ("# A\nx \n".data) s.hend s.cend))
    ∧ ((mdSections ("# A\nx \n".data)).map
        (fun s => sliceL ("# A\nx \n".data) s.hstart s.hend ++ s.content)).flatten
      ≠ "# A\nx \n".data := by
  constructor <;> decide

/-- C1 (amended).  Every section's content is the whitespace-stripped
substring from the end of its heading match to the start of the next
heading match (or end of document); the underlying raw spans tile the
document exactly — preamble, then alternately heading line and raw
span, with no gaps and no overlaps — so only the stripping (and the
dropped preamble) prevents exact reconstruction. -/
theorem c1_amended (t : List Char) :
    (mdSections t).map (fun s => s.content)
      = (mdSections t).map (fun s => pyStrip (sliceL t s.hend s.cend))
    ∧ reconstructFromSections t = t :=
  ⟨sectionsAux_content t (findMatches t) [], reconstructFromSections_eq t⟩

/-- C2.  The section splitter computes heading paths by the stack
discipline the specification describes (pop every entry with level ≥
the current level, then push); on `# A`, `## B`, `## C`, `# D` the
paths are `[A]`, `[A, B]`, `[A, C]`, `[D]`. -/
theorem c2_theorem :
    (∀ t : List Char, (mdSections t).map (fun s => s.pathList) = specHeadingPaths t)
    ∧ (mdSections ("# A\n## B\n## C\n# D".data)).map (fun s => (s.title, s.pathList))
      = [("A".data, ["A".data]),
         ("B".data, ["A".data, "B".data]),
         ("C".data, ["A".data, "C".data]),
         ("D".data, ["D".data])] := by
  constructor
  · intro t
    exact sectionsAux_paths t (findMatches t) []
  · decide

/-- C3 (counterexample).  The reply the model is configured to give is a
syntactically valid JSON array mixing a record with empty question and
answer and a valid sibling — yet the extractor returns NO record at
all: `QA_GENERATION_PROMPT.format` raises `KeyError` before the reply
could even be requested, the exception is caught and `[]` returned, so
the valid sibling record is not kept. -/
theorem c3_counterexample :
    json_loads (extractCandidate mixedReplyText) = some (JValue.jarr mixedItems)
    ∧ (generate_qa_pairs llmMixed ("H".data) ("Some body.".data) ("src".data)).1 = [] := by
  constructor <;> rfl

/-- C3 (amended).  The section-mode QA extractor never returns any
record: rendering `QA_GENERATION_PROMPT` raises on every call (its JSON
output example is not brace-escaped), the exception is absorbed, and
the result is always the empty sequence, with at most the sizing call
ever performed.  In particular no record with an empty question or
answer is ever returned — vacuously — but valid siblings are never
kept either, and no dropping/keeping logic exists in the code. -/
theorem c3_amended (llm : LLM) (heading content source_path : List Char) :
    (generate_qa_pairs llm heading content source_path).1 = []
    ∧ ((generate_qa_pairs llm heading content source_path).2 = []
      ∨ (generate_qa_pairs llm heading content source_path).2
        = [Prompt.countPrompt heading content]) := by
  simp only [generate_qa_pairs]
  by_cases hc : pyStrip content = []
  · rw [if_pos hc]
    exact ⟨rfl, Or.inl rfl⟩
  · rw [if_neg hc, if_neg (by simp [qa_generation_template_broken])]
    exact ⟨rfl, Or.inr rfl⟩

/-- C4.  For every section, when the completion call for the extraction
prompt raises, when the candidate text contains no parseable JSON, or
when the parsed top level is a JSON object rather than an array, the
extractor returns the empty record sequence; the embedding is a total
function, so no failure propagates.  (Because `QA_GENERATION_PROMPT`
fails to render, the extractor in fact returns the empty sequence
unconditionally — see C3 — so each conditional holds a fortiori.) -/
theorem c4_theorem (llm : LLM) (heading content source_path : List Char) :
    (llm (Prompt.qaPrompt heading content (determine_question_count llm heading content))
        = Except.error () →
      (generate_qa_pairs llm heading content source_path).1 = [])
    ∧ (∀ text,
        llm (Prompt.qaPrompt heading content (determine_question_count llm heading content))
          = Except.ok text →
        json_loads (extractCandidate text) = none →
        (generate_qa_pairs llm heading content source_path).1 = [])
    ∧ (∀ text fields,
        llm (Prompt.qaPrompt heading content (determine_question_count llm heading content))
          = Except.ok text →
        json_loads (extractCandidate text) = some (JValue.jobj fields) →
        (generate_qa_pairs llm heading content source_path).1 = []) := by
  simp only [generate_qa_pairs]
  by_cases hc : pyStrip content = []
  · rw [if_pos hc]
    exact ⟨fun _ => rfl, fun _ _ _ => rfl, fun _ _ _ _ => rfl⟩
  · rw [if_neg hc, if_neg (by simp [qa_generation_template_broken])]
    exact ⟨fun _ => rfl, fun _ _ _ => rfl, fun _ _ _ _ => rfl⟩

theorem c4_witness :
    (generate_qa_pairs llmErrAll ("H".data) ("body".data) ("s".data)).1 = []
    ∧ (generate_qa_pairs llmProse ("H".data) ("body".data) ("s".data)).1 = []
    ∧ (generate_qa_pairs llmObjReply ("H".data) ("body".data) ("s".data)).1 = [] :=
  ⟨(c4_theorem llmErrAll ("H".data) ("body".data) ("s".data)).1 rfl,
   (c4_theorem llmProse ("H".data) ("body".data) ("s".data)).2.1 _ rfl rfl,
   (c4_theorem llmObjReply ("H".data) ("body".data) ("s".data)).2.2 _
     [("a".data, JValue.jnum ['1'])] rfl rfl⟩

/-- C5 (counterexample).  For content of length 401 the heuristic gives
`max(3, min(20, 401 // 200)) = 3`, not the 4 the claim asserts. -/
theorem c5_counterexample :
    estimate_question_count (List.replicate 401 'a') = 3
    ∧ estimate_question_count (List.replicate 401 'a') ≠ 4 := by
  constructor <;> simp only [estimate_question_count, List.length_replicate] <;> decide

/-- C5 (amended).  The heuristic sizer is the pure function
`clamp(len // 200, min 3, max 20)`; for lengths 0, 199, 200 and 401 it
returns 3, 3, 3 and 3 (the first length yielding 4 is 800).  Purity and
determinism are inherent: it is a function of the content alone. -/
theorem c5_amended :
    (∀ content : List Char,
      estimate_question_count content = min (max (content.length / 200) 3) 20)
    ∧ estimate_question_count [] = 3
    ∧ estimate_question_count (List.replicate 199 'a') = 3
    ∧ estimate_question_count (List.replicate 200 'a') = 3
    ∧ estimate_question_count (List.replicate 401 'a') = 3
    ∧ estimate_question_count (List.replicate 800 'a') = 4 := by
  refine ⟨?_, rfl, ?_, ?_, ?_, ?_⟩
  · intro content
    unfold estimate_question_count
    omega
  all_goals simp only [estimate_question_count, List.length_replicate]
  all_goals decide

/-- C6 (counterexample).  In qa-gen_implicit-n-questions.py the
re-raised exception aborts the batch: with a first document whose read
fails and a second valid document, the run returns an error, even
though processing the second document alone yields one valid record. -/
theorem c6_counterexample :
    implicit_run llmWhole twoDocs = Except.error ()
    ∧ implicit_process_file llmWhole ("b.md".data) (Except.ok ("# B\ntext".data))
      = Except.ok [[("question".data, JValue.jstr ("q".data)),
                    ("answer".data, JValue.jstr ("a".data)),
                    ("topic".data, JValue.jstr ("b".data)),
                    ("source".data, JValue.jstr ("b.md/b".data))]] := by
  constructor <;> rfl

/-- C6 (amended).  In `MarkdownQAGenerator` (qa-gen.py) and
`SimpleMarkdownQAGenerator` (simple_qa_gen.py) a document whose
processing fails contributes nothing and the batch continues, so the
records of the remaining documents are all returned; in
qa-gen_implicit-n-questions.py `process_file` re-raises, so one failing
document aborts the whole batch. -/
theorem c6_amended :
    (∀ (llm : LLM) (p : List Char) (docs : List (List Char × Except Unit (List Char))),
      runPipeline llm ((p, Except.error ()) :: docs) = runPipeline llm docs)
    ∧ (∀ (llm : LLM) (p : List Char) (docs : List (List Char × Except Unit (List Char))),
      simple_run llm ((p, Except.error ()) :: docs) = simple_run llm docs)
    ∧ (∀ (llm : LLM) (p : List Char) (docs : List (List Char × Except Unit (List Char))),
      implicit_run llm ((p, Except.error ()) :: docs) = Except.error ()) := by
  refine ⟨?_, ?_, ?_⟩ <;> intro llm p docs <;> rfl

/-- C7.  Section mode: `process_markdown_file` hands the extractor, for
every section, the source string `f"{rel_path}/{heading_path}"` (a zip
identity over the composed path list), and for relative path
`docs/guide.md` the `Install` section's composed source is
`docs/guide.md/Setup/Install`; the section-mode extractor itself never
yields a record (see C3), so every section-mode record — there are
none — trivially carries such a source.  Whole-file mode (live): every
record carries a `topic` (defaulted when absent) and its `source` is
the relative path, a slash, and that topic; with no topic in the reply
the topic defaults to the stem (`guide` for `docs/guide.md`). -/
theorem c7_theorem :
    (∀ (llm : LLM) (rel_path md : List Char),
      process_markdown_file llm rel_path (Except.ok md)
        = (((extract_headings_and_content md).zip (sectionSourcePaths rel_path md)).map
            (fun pr => (generate_qa_pairs llm pr.1.1 pr.1.2.1 pr.2).1)).flatten)
    ∧ sectionSourcePaths ("docs/guide.md".data) demoMD
      = ["docs/guide.md/Setup".data, "docs/guide.md/Setup/Install".data]
    ∧ (∀ (llm : LLM) (rel_path : List Char) (readResult : Except Unit (List Char))
         (d : JDict), d ∈ simple_process_file llm rel_path readResult →
        ∃ tv, dictGet d topicKey = some tv
          ∧ dictGet d sourceKey = some (JValue.jstr (rel_path ++ '/' :: strJ tv)))
    ∧ simple_process_file demoLLM ("docs/guide.md".data) (Except.ok ("anything".data))
      = [[("question".data, JValue.jstr ("Q1?".data)),
          ("answer".data, JValue.jstr ("A1".data)),
          ("topic".data, JValue.jstr ("guide".data)),
          ("source".data, JValue.jstr ("docs/guide.md/guide".data))]] := by
  refine ⟨?_, by rfl, ?_, by rfl⟩
  · intro llm rel_path md
    simp only [process_markdown_file, sectionSourcePaths, zip_map_self]
  intro llm rel_path readResult d hd
  cases readResult with
  | error e => simp [simple_process_file] at hd
  | ok content =>
    simp only [simple_process_file] at hd
    cases hr : llm (Prompt.wholeFilePrompt content (estimate_question_count content)) with
    | error e =>
      rw [hr] at hd
      simp at hd
    | ok text =>
      rw [hr] at hd
      dsimp only at hd
      cases hp : json_loads (extractCandidate text) with
      | none =>
        rw [hp] at hd
        simp at hd
      | some v =>
        rw [hp] at hd
        cases v with
        | jarr items =>
          dsimp only at hd
          by_cases hobj : items.all isJObj = true
          · rw [if_pos hobj] at hd
            obtain ⟨item, hitem, rfl⟩ := List.mem_map.mp hd
            exact finishRecord_topic_source rel_path (pathStem rel_path) (asObjFields item)
          · rw [if_neg hobj] at hd
            simp at hd
        | jnull => simp at hd
        | jbool b => simp at hd
        | jnum lex => simp at hd
        | jstr s => simp at hd
        | jobj fields => simp at hd

theorem c7_witness :
    ∃ tv,
      dictGet [("question".data, JValue.jstr ("Q1?".data)),
               ("answer".data, JValue.jstr ("A1".data)),
               ("topic".data, JValue.jstr ("guide".data)),
               ("source".data, JValue.jstr ("docs/guide.md/guide".data))] topicKey = some tv
      ∧ dictGet [("question".data, JValue.jstr ("Q1?".data)),
                 ("answer".data, JValue.jstr ("A1".data)),
                 ("topic".data, JValue.jstr ("guide".data)),
                 ("source".data, JValue.jstr ("docs/guide.md/guide".data))] sourceKey
        = some (JValue.jstr (("docs/guide.md".data) ++ '/' :: strJ tv)) :=
  c7_theorem.2.2.1 demoLLM ("docs/guide.md".data) (Except.ok ("anything".data)) _
    (List.Mem.head _)

/-- C8.  The delegated sizer always lands in `[1, 10]`; it returns 3
when the completion call raises and when the reply holds no digit, and
otherwise the clamp `min(max(n, 1), 10)` of the integer written by the
first digit run found anywhere in the reply (stripping the reply first
changes nothing, since whitespace holds no digit). -/
theorem c8_theorem (llm : LLM) (heading content : List Char) :
    (1 ≤ determine_question_count llm heading content
      ∧ determine_question_count llm heading content ≤ 10)
    ∧ (llm (Prompt.countPrompt heading content) = Except.error () →
        determine_question_count llm heading content = 3)
    ∧ (∀ reply, llm (Prompt.countPrompt heading content) = Except.ok reply →
        (firstDigitRun reply = none → determine_question_count llm heading content = 3)
        ∧ (∀ ds, firstDigitRun reply = some ds →
            determine_question_count llm heading content
              = min (max (natOfDigits ds) 1) 10)) := by
  unfold determine_question_count
  cases hr : llm (Prompt.countPrompt heading content) with
  | error e =>
    cases e
    refine ⟨by norm_num, fun _ => rfl, ?_⟩
    intro reply h
    exact absurd h (by simp)
  | ok reply =>
    dsimp only
    rw [firstDigitRun_pyStrip reply]
    refine ⟨?_, ?_, ?_⟩
    · cases hd : firstDigitRun reply with
      | none => norm_num
      | some ds =>
        dsimp only
        constructor <;> omega
    · intro h
      exact absurd h (by simp)
    · intro r2 h
      have hrr : reply = r2 := by injection h
      subst hrr
      constructor
      · intro hn
        rw [hn]
      · intro ds hds
        rw [hds]

theorem c8_witness :
    determine_question_count llmErrAll [] [] = 3
    ∧ determine_question_count llmProse [] [] = 3
    ∧ determine_question_count llmNum [] [] = min (max (natOfDigits ['2', '5']) 1) 10 :=
  ⟨(c8_theorem llmErrAll [] []).2.1 rfl,
   ((c8_theorem llmProse [] []).2.2 _ rfl).1 rfl,
   ((c8_theorem llmNum [] []).2.2 _ rfl).2 ['2', '5'] rfl⟩

/-- C9.  For every section the splitter emits, the heading path is at
most as long as the heading level, and its last element is the section
title (the stack keeps strictly increasing levels, so at most `level`
entries ≥ 1 fit below the top). -/
theorem c9_theorem (t : List Char) (s : MdSection) (hs : s ∈ mdSections t) :
    s.pathList.length ≤ s.level ∧ s.pathList.getLast? = some s.title :=
  sectionsAux_pathInv t (findMatches t) [] List.chain'_nil (by simp)
    (fun mm hmm => findFrom_levels t _ 0 mm hmm) s hs

theorem c9_witness :
    (((mdSections ("# A\nalpha".data)).headD dummySection).pathList.length
      ≤ ((mdSections ("# A\nalpha".data)).headD dummySection).level)
    ∧ ((mdSections ("# A\nalpha".data)).headD dummySection).pathList.getLast?
      = some ((mdSections ("# A\nalpha".data)).headD dummySection).title :=
  c9_theorem ("# A\nalpha".data) _ (List.Mem.head _)

/-- C10.  A section whose content strips to nothing short-circuits:
no records, and no completion call of any kind (the trace of performed
calls is empty). -/
theorem c10_theorem (llm : LLM) (heading content source_path : List Char)
    (h : pyStrip content = []) :
    generate_qa_pairs llm heading content source_path = ([], []) := by
  simp only [generate_qa_pairs]
  rw [if_pos h]

theorem c10_witness :
    pyStrip ("  \n\t ".data) = []
    ∧ generate_qa_pairs llmErrAll ("H".data) ("  \n\t ".data) ("s".data) = ([], []) :=
  ⟨by decide, c10_theorem llmErrAll ("H".data) ("  \n\t ".data) ("s".data) (by decide)⟩
